import Mathlib

/-!
Shallow embedding of the OpenNL BiCGSTAB solver
(`src/Packages/OpenNL/include/OpenNL/bicgstab.h`) over exact rational
arithmetic.  Vectors are lists of rationals; the BLAS-1 surface is
`scal`, `axpy`, `dot` (with `copy` being value assignment); a matrix is
a list of rows and `matVec` is the `mult` hook.  The iteration kernel of
`Solver_BICGSTAB::solve` is translated statement by statement: each
intermediate quantity of one loop body gets a named definition
(`stepAd`, `stepAlpha`, ...), `step` assembles one loop body including
the breakdown `break`s, and `loop` runs the `while` loop on explicit
fuel (`max_iter + 1` suffices, since `its` grows on every non-breaking
iteration).  The `s ≡ h` buffer alias of the source is realized by
using the single field `h` wherever the source reads or writes `s`.
Asserts of the source (`assert(!IsZero(dot(rT,rT)))`,
`assert(!IsZero(rTAd))`) are modelled as no-ops, i.e. release (NDEBUG)
semantics.
-/

namespace OpenNL

/-- Dense vectors of rationals. -/
abbrev Vec := List ℚ

/-- The BLAS dot product `Σ xᵢ·yᵢ` (truncating at the shorter vector). -/
def dot : Vec → Vec → ℚ
  | x :: xs, y :: ys => x * y + dot xs ys
  | _, _ => 0

/-- The BLAS axpy `y ← y + a·x`, returned as a fresh list. -/
def axpy (a : ℚ) : Vec → Vec → Vec
  | x :: xs, y :: ys => (y + a * x) :: axpy a xs ys
  | _, _ => []

/-- The BLAS scal `v ← a·v`. -/
def scal (a : ℚ) (v : Vec) : Vec := v.map (fun vi => a * vi)

/-- Matrix times vector, the `mult(A, x, y)` hook of the solver. -/
def matVec (A : List Vec) (x : Vec) : Vec := A.map (fun row => dot row x)

/-- A freshly constructed vector of dimension `n` (zero filled). -/
def zeroVec (n : Nat) : Vec := List.replicate n 0

/-- Smallest positive normalized double, `numeric_limits<double>::min() = 2⁻¹⁰²²`. -/
def tiny : ℚ := 1 / 2 ^ 1022

/-- Divide-by-zero guard of the solver: `IsZero a ⟺ |a| < 10·tiny`. -/
def IsZero (a : ℚ) : Bool := decide (|a| < 10 * tiny)

/-- Mutable state of one `solve` call: iterate `x`, residual `r`, search
direction `d`, the shared `h ≡ s` buffer, accumulator `u`, scalars
`rTh` and `rTr`, and the loop counter `its`.  The shadow residual `rT`,
the target `err` and the iteration cap are loop constants and are
passed separately. -/
structure St where
  x : Vec
  r : Vec
  d : Vec
  h : Vec
  u : Vec
  rTh : ℚ
  rTr : ℚ
  its : Nat

/-- Loop body, line `Ad = A*d`. -/
def stepAd (mult : Vec → Vec) (s : St) : Vec := mult s.d

/-- Loop body, line `rTAd = dot(rT, Ad)`. -/
def stepRTAd (mult : Vec → Vec) (rT : Vec) (s : St) : ℚ := dot rT (stepAd mult s)

/-- Loop body, line `alpha = rTh / rTAd` (the source only asserts that
`rTAd` is not near zero; it divides unconditionally). -/
def stepAlpha (mult : Vec → Vec) (rT : Vec) (s : St) : ℚ :=
  s.rTh / stepRTAd mult rT s

/-- Loop body, line `axpy(-alpha, Ad, r)`. -/
def stepR1 (mult : Vec → Vec) (rT : Vec) (s : St) : Vec :=
  axpy (-(stepAlpha mult rT s)) (stepAd mult s) s.r

/-- Loop body, lines `copy(h, s); axpy(-alpha, Ad, s)`: since `s ≡ h`,
the copy is a no-op and the shared buffer becomes `h - alpha*Ad`. -/
def stepH1 (mult : Vec → Vec) (rT : Vec) (s : St) : Vec :=
  axpy (-(stepAlpha mult rT s)) (stepAd mult s) s.h

/-- Loop body, line `mult(A, s, t)`. -/
def stepT (mult : Vec → Vec) (rT : Vec) (s : St) : Vec :=
  mult (stepH1 mult rT s)

/-- Loop body, lines `axpy(1, t, u); scal(alpha, u)`: `u ← alpha·(u + t)`. -/
def stepUacc (mult : Vec → Vec) (rT : Vec) (s : St) : Vec :=
  scal (stepAlpha mult rT s) (axpy 1 (stepT mult rT s) s.u)

/-- Loop body, line `st = dot(s, t)`. -/
def stepSt (mult : Vec → Vec) (rT : Vec) (s : St) : ℚ :=
  dot (stepH1 mult rT s) (stepT mult rT s)

/-- Loop body, line `tt = dot(t, t)`. -/
def stepTt (mult : Vec → Vec) (rT : Vec) (s : St) : ℚ :=
  dot (stepT mult rT s) (stepT mult rT s)

/-- Loop body, lines `if (IsZero(st) || IsZero(tt)) omega = 0; else omega = st/tt`. -/
def stepOmega (mult : Vec → Vec) (rT : Vec) (s : St) : ℚ :=
  if IsZero (stepSt mult rT s) || IsZero (stepTt mult rT s) then 0
  else stepSt mult rT s / stepTt mult rT s

/-- Loop body, lines `axpy(-alpha, d, x); axpy(-omega, s, x)`. -/
def stepX (mult : Vec → Vec) (rT : Vec) (s : St) : Vec :=
  axpy (-(stepOmega mult rT s)) (stepH1 mult rT s)
    (axpy (-(stepAlpha mult rT s)) s.d s.x)

/-- Loop body, line `axpy(-omega, t, r)` (after `copy(s, h)`, a no-op). -/
def stepR2 (mult : Vec → Vec) (rT : Vec) (s : St) : Vec :=
  axpy (-(stepOmega mult rT s)) (stepT mult rT s) (stepR1 mult rT s)

/-- Loop body, line `axpy(-omega, t, h)`. -/
def stepH2 (mult : Vec → Vec) (rT : Vec) (s : St) : Vec :=
  axpy (-(stepOmega mult rT s)) (stepT mult rT s) (stepH1 mult rT s)

/-- Loop body, lines `beta = (alpha/omega)/rTh; rTh = dot(rT, h); beta *= rTh`
(the division uses the previous `rTh`, the factor the updated one). -/
def stepBeta (mult : Vec → Vec) (rT : Vec) (s : St) : ℚ :=
  stepAlpha mult rT s / stepOmega mult rT s / s.rTh * dot rT (stepH2 mult rT s)

/-- Loop body, lines `scal(beta, d); axpy(1, h, d); axpy(-beta*omega, Ad, d)`. -/
def stepDnew (mult : Vec → Vec) (rT : Vec) (s : St) : Vec :=
  axpy (-(stepBeta mult rT s * stepOmega mult rT s)) (stepAd mult s)
    (axpy 1 (stepH2 mult rT s) (scal (stepBeta mult rT s) s.d))

/-- One body of the `while` loop.  The second component is `true` when
the body ended in one of the two breakdown `break`s
(`IsZero(omega)` or `IsZero(rTh)`); in that case `d`, `rTh` and `its`
keep their previous values, exactly as in the source where the `break`s
sit before the `beta`/`rTh`/`d`/`its++` statements. -/
def step (mult : Vec → Vec) (rT : Vec) (s : St) : St × Bool :=
  if IsZero (stepOmega mult rT s) || IsZero s.rTh then
    ({ s with
        x := stepX mult rT s
        r := stepR2 mult rT s
        h := stepH2 mult rT s
        u := stepUacc mult rT s
        rTr := dot (stepR2 mult rT s) (stepR2 mult rT s) }, true)
  else
    ({ x := stepX mult rT s
       r := stepR2 mult rT s
       d := stepDnew mult rT s
       h := stepH2 mult rT s
       u := stepUacc mult rT s
       rTh := dot rT (stepH2 mult rT s)
       rTr := dot (stepR2 mult rT s) (stepR2 mult rT s)
       its := s.its + 1 }, false)

/-- The `while (rTr > err && its < max_iter)` loop, on explicit fuel. -/
def loop (mult : Vec → Vec) (rT : Vec) (err : ℚ) (maxIter : Nat) : Nat → St → St
  | 0, s => s
  | fuel + 1, s =>
    if err < s.rTr ∧ s.its < maxIter then
      if (step mult rT s).2 then (step mult rT s).1
      else loop mult rT err maxIter fuel (step mult rT s).1
    else s

/-- Effective iteration cap: a configured `max_iter_ = 0` means `10*n`. -/
def effCap (n maxIter0 : Nat) : Nat := if maxIter0 = 0 then 10 * n else maxIter0

/-- Initial residual `r = A*x - b` (`mult(A,x,r); axpy(-1,b,r)`). -/
def initR (mult : Vec → Vec) (b x : Vec) : Vec := axpy (-1) b (mult x)

/-- State after the initialization block: `d = h = rT = r = A*x - b`,
`u` freshly allocated, `rTh = dot(rT,h)`, `rTr = dot(r,r)`, `its = 0`. -/
def initSt (mult : Vec → Vec) (n : Nat) (b x : Vec) : St :=
  { x := x
    r := initR mult b x
    d := initR mult b x
    h := initR mult b x
    u := zeroVec n
    rTh := dot (initR mult b x) (initR mult b x)
    rTr := dot (initR mult b x) (initR mult b x)
    its := 0 }

/-- State at loop exit.  Fuel `effCap + 1` is an upper bound on the
number of loop-condition evaluations, since `its` starts at `0`,
increases by one on every non-breaking iteration, and the condition
requires `its < effCap`. -/
def finalState (mult : Vec → Vec) (n : Nat) (eps : ℚ) (maxIter0 : Nat) (b x : Vec) : St :=
  loop mult (initR mult b x) (eps * eps * dot b b) (effCap n maxIter0)
    (effCap n maxIter0 + 1) (initSt mult n b x)

/-- Solver configuration: tolerance `epsilon_` (default `1e-4`) and the
configured iteration cap `max_iter_` (default `0`, meaning `10*n`). -/
structure Solver_BICGSTAB where
  epsilon_ : ℚ
  max_iter_ : Nat

/-- `Solver_BICGSTAB::solve(A, b, x)`, returning the success flag, the
final contents of the in-out iterate `x`, and the loop counter `its`.
The three dimension checks are the source's early returns; afterwards
`success = (rTr <= err)` on the loop-exit state. -/
def solve (solver : Solver_BICGSTAB) (A : List Vec) (b x : Vec) : Bool × Vec × Nat :=
  if A.length ≠ b.length then (false, x, 0)
  else if A.length ≠ x.length then (false, x, 0)
  else if A.length = 0 then (false, x, 0)
  else
    (decide ((finalState (matVec A) A.length solver.epsilon_ solver.max_iter_ b x).rTr
        ≤ solver.epsilon_ * solver.epsilon_ * dot b b),
     (finalState (matVec A) A.length solver.epsilon_ solver.max_iter_ b x).x,
     (finalState (matVec A) A.length solver.epsilon_ solver.max_iter_ b x).its)

/-!
Variant embedding for the buffer-aliasing question (spec §9): the same
sequence of BLAS calls, but with `s` and `h` kept as two distinct
vectors.  Here `copy(h, s)` and `copy(s, h)` are real copies.
-/

/-- Solver state of the variant that keeps `s` distinct from `h`. -/
structure StD where
  x : Vec
  r : Vec
  d : Vec
  h : Vec
  s : Vec
  u : Vec
  rTh : ℚ
  rTr : ℚ
  its : Nat

/-- Forgetful projection from the distinct-buffer state to the aliased
state (drops the extra `s` buffer). -/
def projD (sd : StD) : St :=
  { x := sd.x, r := sd.r, d := sd.d, h := sd.h, u := sd.u,
    rTh := sd.rTh, rTr := sd.rTr, its := sd.its }

/-- Distinct variant, lines `copy(h, s); axpy(-alpha, Ad, s)`: the real
copy makes `s = h - alpha*Ad` with `h` still unchanged. -/
def stepDS2 (mult : Vec → Vec) (rT : Vec) (sd : StD) : Vec :=
  axpy (-(sd.rTh / dot rT (mult sd.d))) (mult sd.d) sd.h

/-- Distinct variant, line `mult(A, s, t)`. -/
def stepDT (mult : Vec → Vec) (rT : Vec) (sd : StD) : Vec :=
  mult (stepDS2 mult rT sd)

/-- Distinct variant, `omega` from `st = dot(s,t)` and `tt = dot(t,t)`. -/
def stepDOmega (mult : Vec → Vec) (rT : Vec) (sd : StD) : ℚ :=
  if IsZero (dot (stepDS2 mult rT sd) (stepDT mult rT sd))
      || IsZero (dot (stepDT mult rT sd) (stepDT mult rT sd)) then 0
  else dot (stepDS2 mult rT sd) (stepDT mult rT sd)
        / dot (stepDT mult rT sd) (stepDT mult rT sd)

/-- Distinct variant, lines `axpy(-alpha, d, x); axpy(-omega, s, x)`. -/
def stepDX (mult : Vec → Vec) (rT : Vec) (sd : StD) : Vec :=
  axpy (-(stepDOmega mult rT sd)) (stepDS2 mult rT sd)
    (axpy (-(sd.rTh / dot rT (mult sd.d))) sd.d sd.x)

/-- Distinct variant, lines `axpy(-alpha, Ad, r); ...; axpy(-omega, t, r)`. -/
def stepDR2 (mult : Vec → Vec) (rT : Vec) (sd : StD) : Vec :=
  axpy (-(stepDOmega mult rT sd)) (stepDT mult rT sd)
    (axpy (-(sd.rTh / dot rT (mult sd.d))) (mult sd.d) sd.r)

/-- Distinct variant, lines `copy(s, h); axpy(-omega, t, h)`: the
copy-back writes `s` into `h`, then `h ← h - omega*t`. -/
def stepDH2 (mult : Vec → Vec) (rT : Vec) (sd : StD) : Vec :=
  axpy (-(stepDOmega mult rT sd)) (stepDT mult rT sd) (stepDS2 mult rT sd)

/-- Distinct variant, `u ← alpha·(u + t)`. -/
def stepDU (mult : Vec → Vec) (rT : Vec) (sd : StD) : Vec :=
  scal (sd.rTh / dot rT (mult sd.d)) (axpy 1 (stepDT mult rT sd) sd.u)

/-- Distinct variant, the `beta` scalar. -/
def stepDBeta (mult : Vec → Vec) (rT : Vec) (sd : StD) : ℚ :=
  sd.rTh / dot rT (mult sd.d) / stepDOmega mult rT sd / sd.rTh
    * dot rT (stepDH2 mult rT sd)

/-- Distinct variant, the `d` update. -/
def stepDDnew (mult : Vec → Vec) (rT : Vec) (sd : StD) : Vec :=
  axpy (-(stepDBeta mult rT sd * stepDOmega mult rT sd)) (mult sd.d)
    (axpy 1 (stepDH2 mult rT sd) (scal (stepDBeta mult rT sd) sd.d))

/-- One loop body of the distinct-buffer variant: the same BLAS calls in
the same order, with `s` its own vector. -/
def stepD (mult : Vec → Vec) (rT : Vec) (sd : StD) : StD × Bool :=
  if IsZero (stepDOmega mult rT sd) || IsZero sd.rTh then
    ({ sd with
        x := stepDX mult rT sd
        r := stepDR2 mult rT sd
        s := stepDS2 mult rT sd
        h := stepDH2 mult rT sd
        u := stepDU mult rT sd
        rTr := dot (stepDR2 mult rT sd) (stepDR2 mult rT sd) }, true)
  else
    ({ x := stepDX mult rT sd
       r := stepDR2 mult rT sd
       d := stepDDnew mult rT sd
       s := stepDS2 mult rT sd
       h := stepDH2 mult rT sd
       u := stepDU mult rT sd
       rTh := dot rT (stepDH2 mult rT sd)
       rTr := dot (stepDR2 mult rT sd) (stepDR2 mult rT sd)
       its := sd.its + 1 }, false)

/-- The `while` loop of the distinct-buffer variant. -/
def loopD (mult : Vec → Vec) (rT : Vec) (err : ℚ) (maxIter : Nat) : Nat → StD → StD
  | 0, sd => sd
  | fuel + 1, sd =>
    if err < sd.rTr ∧ sd.its < maxIter then
      if (stepD mult rT sd).2 then (stepD mult rT sd).1
      else loopD mult rT err maxIter fuel (stepD mult rT sd).1
    else sd

/-- Initial state of the distinct-buffer variant: one extra freshly
allocated vector for `s`. -/
def initStD (mult : Vec → Vec) (n : Nat) (b x : Vec) : StD :=
  { x := x
    r := initR mult b x
    d := initR mult b x
    h := initR mult b x
    s := zeroVec n
    u := zeroVec n
    rTh := dot (initR mult b x) (initR mult b x)
    rTr := dot (initR mult b x) (initR mult b x)
    its := 0 }

/-- Loop-exit state of the distinct-buffer variant. -/
def finalStateD (mult : Vec → Vec) (n : Nat) (eps : ℚ) (maxIter0 : Nat) (b x : Vec) : StD :=
  loopD mult (initR mult b x) (eps * eps * dot b b) (effCap n maxIter0)
    (effCap n maxIter0 + 1) (initStD mult n b x)

/-- Modelled from the spec: `solve` of the variant that keeps `s` and
`h` as two distinct vectors while executing the same BLAS calls in the
same order (spec §9, buffer aliasing). -/
def solveDistinct (solver : Solver_BICGSTAB) (A : List Vec) (b x : Vec) : Bool × Vec × Nat :=
  if A.length ≠ b.length then (false, x, 0)
  else if A.length ≠ x.length then (false, x, 0)
  else if A.length = 0 then (false, x, 0)
  else
    (decide ((finalStateD (matVec A) A.length solver.epsilon_ solver.max_iter_ b x).rTr
        ≤ solver.epsilon_ * solver.epsilon_ * dot b b),
     (finalStateD (matVec A) A.length solver.epsilon_ solver.max_iter_ b x).x,
     (finalStateD (matVec A) A.length solver.epsilon_ solver.max_iter_ b x).its)

/-!
Variant embedding for the dead-accumulator question (spec §9): the two
BLAS calls `axpy(1, t, u); scal(alpha, u)` removed, and with them the
vector `u` itself.
-/

/-- Solver state of the variant without the accumulator `u`. -/
structure StNoU where
  x : Vec
  r : Vec
  d : Vec
  h : Vec
  rTh : ℚ
  rTr : ℚ
  its : Nat

/-- Forgetful projection dropping the accumulator `u`. -/
def projU (s : St) : StNoU :=
  { x := s.x, r := s.r, d := s.d, h := s.h, rTh := s.rTh, rTr := s.rTr, its := s.its }

/-- No-`u` variant, the shared `h ≡ s` buffer after `h - alpha*Ad`. -/
def stepUH1 (mult : Vec → Vec) (rT : Vec) (su : StNoU) : Vec :=
  axpy (-(su.rTh / dot rT (mult su.d))) (mult su.d) su.h

/-- No-`u` variant, `t = A*s`. -/
def stepUT (mult : Vec → Vec) (rT : Vec) (su : StNoU) : Vec :=
  mult (stepUH1 mult rT su)

/-- No-`u` variant, `omega`. -/
def stepUOmega (mult : Vec → Vec) (rT : Vec) (su : StNoU) : ℚ :=
  if IsZero (dot (stepUH1 mult rT su) (stepUT mult rT su))
      || IsZero (dot (stepUT mult rT su) (stepUT mult rT su)) then 0
  else dot (stepUH1 mult rT su) (stepUT mult rT su)
        / dot (stepUT mult rT su) (stepUT mult rT su)

/-- No-`u` variant, the `x` update. -/
def stepUX (mult : Vec → Vec) (rT : Vec) (su : StNoU) : Vec :=
  axpy (-(stepUOmega mult rT su)) (stepUH1 mult rT su)
    (axpy (-(su.rTh / dot rT (mult su.d))) su.d su.x)

/-- No-`u` variant, the `r` update. -/
def stepUR2 (mult : Vec → Vec) (rT : Vec) (su : StNoU) : Vec :=
  axpy (-(stepUOmega mult rT su)) (stepUT mult rT su)
    (axpy (-(su.rTh / dot rT (mult su.d))) (mult su.d) su.r)

/-- No-`u` variant, the `h` update. -/
def stepUH2 (mult : Vec → Vec) (rT : Vec) (su : StNoU) : Vec :=
  axpy (-(stepUOmega mult rT su)) (stepUT mult rT su) (stepUH1 mult rT su)

/-- No-`u` variant, `beta`. -/
def stepUBeta (mult : Vec → Vec) (rT : Vec) (su : StNoU) : ℚ :=
  su.rTh / dot rT (mult su.d) / stepUOmega mult rT su / su.rTh
    * dot rT (stepUH2 mult rT su)

/-- No-`u` variant, the `d` update. -/
def stepUDnew (mult : Vec → Vec) (rT : Vec) (su : StNoU) : Vec :=
  axpy (-(stepUBeta mult rT su * stepUOmega mult rT su)) (mult su.d)
    (axpy 1 (stepUH2 mult rT su) (scal (stepUBeta mult rT su) su.d))

/-- One loop body with the two `u`-updating BLAS calls removed. -/
def stepNoU (mult : Vec → Vec) (rT : Vec) (su : StNoU) : StNoU × Bool :=
  if IsZero (stepUOmega mult rT su) || IsZero su.rTh then
    ({ su with
        x := stepUX mult rT su
        r := stepUR2 mult rT su
        h := stepUH2 mult rT su
        rTr := dot (stepUR2 mult rT su) (stepUR2 mult rT su) }, true)
  else
    ({ x := stepUX mult rT su
       r := stepUR2 mult rT su
       d := stepUDnew mult rT su
       h := stepUH2 mult rT su
       rTh := dot rT (stepUH2 mult rT su)
       rTr := dot (stepUR2 mult rT su) (stepUR2 mult rT su)
       its := su.its + 1 }, false)

/-- The `while` loop of the no-`u` variant. -/
def loopNoU (mult : Vec → Vec) (rT : Vec) (err : ℚ) (maxIter : Nat) : Nat → StNoU → StNoU
  | 0, su => su
  | fuel + 1, su =>
    if err < su.rTr ∧ su.its < maxIter then
      if (stepNoU mult rT su).2 then (stepNoU mult rT su).1
      else loopNoU mult rT err maxIter fuel (stepNoU mult rT su).1
    else su

/-- Initial state of the no-`u` variant. -/
def initStNoU (mult : Vec → Vec) (b x : Vec) : StNoU :=
  { x := x
    r := initR mult b x
    d := initR mult b x
    h := initR mult b x
    rTh := dot (initR mult b x) (initR mult b x)
    rTr := dot (initR mult b x) (initR mult b x)
    its := 0 }

/-- Loop-exit state of the no-`u` variant. -/
def finalStateNoU (mult : Vec → Vec) (n : Nat) (eps : ℚ) (maxIter0 : Nat) (b x : Vec) : StNoU :=
  loopNoU mult (initR mult b x) (eps * eps * dot b b) (effCap n maxIter0)
    (effCap n maxIter0 + 1) (initStNoU mult b x)

/-- Modelled from the spec: `solve` of the variant with the two
`u`-updating BLAS calls (and the allocation of `u`) removed
(spec §9, dead accumulator). -/
def solveNoU (solver : Solver_BICGSTAB) (A : List Vec) (b x : Vec) : Bool × Vec × Nat :=
  if A.length ≠ b.length then (false, x, 0)
  else if A.length ≠ x.length then (false, x, 0)
  else if A.length = 0 then (false, x, 0)
  else
    (decide ((finalStateNoU (matVec A) A.length solver.epsilon_ solver.max_iter_ b x).rTr
        ≤ solver.epsilon_ * solver.epsilon_ * dot b b),
     (finalStateNoU (matVec A) A.length solver.epsilon_ solver.max_iter_ b x).x,
     (finalStateNoU (matVec A) A.length solver.epsilon_ solver.max_iter_ b x).its)

/-- Lengths of the four in-loop vectors (all sized `n = dimension(A)`). -/
abbrev LenOk (n : Nat) (s : St) : Prop :=
  s.x.length = n ∧ s.r.length = n ∧ s.d.length = n ∧ s.h.length = n

/-- The residual invariant: the carried `r` equals the exact residual
`A·x - b` (written as `axpy (-1) b (matVec A x)`, exactly as the
initialization computes it) of the carried iterate `x`. -/
abbrev ResInv (A : List Vec) (b : Vec) (s : St) : Prop :=
  s.r = axpy (-1) b (matVec A s.x)

/-! Basic facts about the BLAS primitives. -/

theorem length_axpy (a : ℚ) (x y : Vec) : (axpy a x y).length = min x.length y.length := by
  induction x generalizing y with
  | nil => simp [axpy]
  | cons x0 xs ih =>
    cases y with
    | nil => simp [axpy]
    | cons y0 ys =>
      simp only [axpy, List.length_cons, ih ys]
      omega

theorem length_scal (a : ℚ) (v : Vec) : (scal a v).length = v.length := by
  simp [scal]

theorem length_matVec (A : List Vec) (x : Vec) : (matVec A x).length = A.length := by
  simp [matVec]

theorem length_zeroVec (n : Nat) : (zeroVec n).length = n := by
  simp [zeroVec]

theorem axpy_swap (a c : ℚ) (u v w : Vec) :
    axpy a u (axpy c v w) = axpy c v (axpy a u w) := by
  induction u generalizing v w with
  | nil => cases v <;> cases w <;> simp [axpy]
  | cons u0 us ih =>
    cases v with
    | nil => simp [axpy]
    | cons v0 vs =>
      cases w with
      | nil => simp [axpy]
      | cons w0 ws =>
        simp only [axpy, List.cons.injEq]
        exact ⟨by ring, ih vs ws⟩

theorem dot_axpy (a : ℚ) (row x y : Vec) (h : x.length = y.length) :
    dot row (axpy a x y) = dot row y + a * dot row x := by
  induction row generalizing x y with
  | nil => simp [dot]
  | cons c cs ih =>
    cases x with
    | nil =>
      cases y with
      | nil => simp [dot, axpy]
      | cons y0 ys => simp at h
    | cons x0 xs =>
      cases y with
      | nil => simp at h
      | cons y0 ys =>
        simp only [axpy, dot, List.length_cons] at h ⊢
        rw [ih xs ys (by omega)]
        ring

theorem matVec_axpy (A : List Vec) (a : ℚ) (x y : Vec) (h : x.length = y.length) :
    matVec A (axpy a x y) = axpy a (matVec A x) (matVec A y) := by
  induction A with
  | nil => rfl
  | cons row rows ih =>
    show dot row (axpy a x y) :: matVec rows (axpy a x y)
        = (dot row y + a * dot row x) :: axpy a (matVec rows x) (matVec rows y)
    rw [dot_axpy a row x y h, ih]

theorem dot_self_nonneg (v : Vec) : 0 ≤ dot v v := by
  induction v with
  | nil => simp [dot]
  | cons a as ih =>
    have h : dot (a :: as) (a :: as) = a * a + dot as as := rfl
    rw [h]
    nlinarith [mul_self_nonneg a]

theorem dot_zeroVec (n : Nat) : dot (zeroVec n) (zeroVec n) = 0 := by
  induction n with
  | zero => rfl
  | succ m ih =>
    show (0 : ℚ) * 0 + dot (zeroVec m) (zeroVec m) = 0
    rw [ih]
    ring

theorem IsZero_zero : IsZero 0 = true := by
  unfold IsZero tiny
  norm_num

/-! Facts about one loop body and about the fueled loop. -/

theorem step_fst_x (mult : Vec → Vec) (rT : Vec) (s : St) :
    (step mult rT s).1.x = stepX mult rT s := by
  unfold step; split <;> rfl

theorem step_fst_r (mult : Vec → Vec) (rT : Vec) (s : St) :
    (step mult rT s).1.r = stepR2 mult rT s := by
  unfold step; split <;> rfl

theorem step_fst_h (mult : Vec → Vec) (rT : Vec) (s : St) :
    (step mult rT s).1.h = stepH2 mult rT s := by
  unfold step; split <;> rfl

theorem step_fst_rTr (mult : Vec → Vec) (rT : Vec) (s : St) :
    (step mult rT s).1.rTr = dot ((step mult rT s).1.r) ((step mult rT s).1.r) := by
  unfold step; split <;> rfl

theorem step_its_le (mult : Vec → Vec) (rT : Vec) (s : St) :
    (step mult rT s).1.its ≤ s.its + 1 := by
  unfold step; split
  · exact Nat.le_succ _
  · exact Nat.le_refl _

theorem loop_succ_eq (mult : Vec → Vec) (rT : Vec) (err : ℚ) (maxIter fuel : Nat) (s : St) :
    loop mult rT err maxIter (fuel + 1) s =
      if err < s.rTr ∧ s.its < maxIter then
        if (step mult rT s).2 then (step mult rT s).1
        else loop mult rT err maxIter fuel (step mult rT s).1
      else s := rfl

theorem loop_inv (P : St → Prop) (mult : Vec → Vec) (rT : Vec) (err : ℚ) (maxIter : Nat)
    (hstep : ∀ s, P s → err < s.rTr → s.its < maxIter → P (step mult rT s).1) :
    ∀ fuel s, P s → P (loop mult rT err maxIter fuel s) := by
  intro fuel
  induction fuel with
  | zero => intro s hs; exact hs
  | succ n ih =>
    intro s hs
    rw [loop_succ_eq]
    by_cases hc : err < s.rTr ∧ s.its < maxIter
    · rw [if_pos hc]
      by_cases hb : (step mult rT s).2 = true
      · rw [if_pos hb]; exact hstep s hs hc.1 hc.2
      · rw [if_neg hb]; exact ih _ (hstep s hs hc.1 hc.2)
    · rw [if_neg hc]; exact hs

/-! The residual invariant `r = A·x - b` and its preservation. -/

theorem res_update (A : List Vec) (b xv rv dv hv : Vec) (a w : ℚ)
    (hx : xv.length = A.length) (hd : dv.length = A.length)
    (hh : hv.length = A.length)
    (hres : rv = axpy (-1) b (matVec A xv)) :
    axpy (-w) (matVec A (axpy (-a) (matVec A dv) hv)) (axpy (-a) (matVec A dv) rv)
      = axpy (-1) b (matVec A (axpy (-w) (axpy (-a) (matVec A dv) hv) (axpy (-a) dv xv))) := by
  subst hres
  rw [matVec_axpy A (-w) (axpy (-a) (matVec A dv) hv) (axpy (-a) dv xv)
      (by simp [length_axpy, length_matVec, hd, hh, hx])]
  rw [matVec_axpy A (-a) dv xv (by rw [hd, hx])]
  rw [axpy_swap (-1) (-w) b (matVec A (axpy (-a) (matVec A dv) hv))
      (axpy (-a) (matVec A dv) (matVec A xv))]
  rw [axpy_swap (-1) (-a) b (matVec A dv) (matVec A xv)]

theorem step_res (A : List Vec) (b rT : Vec) (s : St)
    (hx : s.x.length = A.length)
    (hd : s.d.length = A.length) (hh : s.h.length = A.length)
    (hres : ResInv A b s) :
    ResInv A b (step (matVec A) rT s).1 := by
  show (step (matVec A) rT s).1.r = _
  rw [step_fst_r, step_fst_x]
  unfold stepR2 stepR1 stepT stepX stepH1 stepAd
  generalize stepAlpha (matVec A) rT s = a
  generalize stepOmega (matVec A) rT s = w
  exact res_update A b s.x s.r s.d s.h a w hx hd hh hres

theorem step_len (A : List Vec) (rT : Vec) (s : St)
    (hx : s.x.length = A.length) (hr : s.r.length = A.length)
    (hd : s.d.length = A.length) (hh : s.h.length = A.length) :
    LenOk A.length (step (matVec A) rT s).1 := by
  have lAd : (stepAd (matVec A) s).length = A.length := length_matVec A s.d
  have lh1 : (stepH1 (matVec A) rT s).length = A.length := by
    simp [stepH1, length_axpy, lAd, hh]
  have lt : (stepT (matVec A) rT s).length = A.length := length_matVec A _
  have lx : (stepX (matVec A) rT s).length = A.length := by
    simp [stepX, length_axpy, lh1, hd, hx]
  have lr2 : (stepR2 (matVec A) rT s).length = A.length := by
    simp [stepR2, stepR1, length_axpy, lt, lAd, hr]
  have lh2 : (stepH2 (matVec A) rT s).length = A.length := by
    simp [stepH2, length_axpy, lt, lh1]
  have ldn : (stepDnew (matVec A) rT s).length = A.length := by
    simp [stepDnew, length_axpy, length_scal, lAd, lh2, hd]
  unfold step; split
  · exact ⟨lx, lr2, hd, lh2⟩
  · exact ⟨lx, lr2, ldn, lh2⟩

theorem loop_len_res (A : List Vec) (b rT : Vec) (err : ℚ) (maxIter : Nat) :
    ∀ fuel s, LenOk A.length s → ResInv A b s →
      LenOk A.length (loop (matVec A) rT err maxIter fuel s)
        ∧ ResInv A b (loop (matVec A) rT err maxIter fuel s) := by
  intro fuel s hlen hres
  exact loop_inv (fun t => LenOk A.length t ∧ ResInv A b t) (matVec A) rT err maxIter
    (fun t ht _ _ =>
      ⟨step_len A rT t ht.1.1 ht.1.2.1 ht.1.2.2.1 ht.1.2.2.2,
       step_res A b rT t ht.1.1 ht.1.2.2.1 ht.1.2.2.2 ht.2⟩)
    fuel s ⟨hlen, hres⟩

theorem loop_rTr (mult : Vec → Vec) (rT : Vec) (err : ℚ) (maxIter : Nat) :
    ∀ fuel s, s.rTr = dot s.r s.r →
      (loop mult rT err maxIter fuel s).rTr
        = dot (loop mult rT err maxIter fuel s).r (loop mult rT err maxIter fuel s).r := by
  intro fuel s hs
  exact loop_inv (fun t => t.rTr = dot t.r t.r) mult rT err maxIter
    (fun t _ _ _ => step_fst_rTr mult rT t) fuel s hs

theorem loop_its (mult : Vec → Vec) (rT : Vec) (err : ℚ) (maxIter : Nat) :
    ∀ fuel s, s.its ≤ maxIter → (loop mult rT err maxIter fuel s).its ≤ maxIter := by
  intro fuel s hs
  exact loop_inv (fun t => t.its ≤ maxIter) mult rT err maxIter
    (fun t _ _ hlt => le_trans (step_its_le mult rT t) hlt) fuel s hs

/-- Unfolding of `solve` when the three dimension checks pass. -/
theorem solve_of_valid (solver : Solver_BICGSTAB) (A : List Vec) (b x : Vec)
    (hb : A.length = b.length) (hx : A.length = x.length) (hn : A.length ≠ 0) :
    solve solver A b x =
      (decide ((finalState (matVec A) A.length solver.epsilon_ solver.max_iter_ b x).rTr
          ≤ solver.epsilon_ * solver.epsilon_ * dot b b),
       (finalState (matVec A) A.length solver.epsilon_ solver.max_iter_ b x).x,
       (finalState (matVec A) A.length solver.epsilon_ solver.max_iter_ b x).its) := by
  unfold solve
  rw [if_neg (fun hcon => hcon hb), if_neg (fun hcon => hcon hx), if_neg hn]

/-! Equivalence of the distinct-buffer variant with the aliased solver. -/

theorem stepD_proj (mult : Vec → Vec) (rT : Vec) (sd : StD) :
    projD (stepD mult rT sd).1 = (step mult rT (projD sd)).1
      ∧ (stepD mult rT sd).2 = (step mult rT (projD sd)).2 := by
  by_cases hc : (IsZero (stepOmega mult rT (projD sd)) || IsZero (projD sd).rTh) = true
  · have hc2 : (IsZero (stepDOmega mult rT sd) || IsZero sd.rTh) = true := hc
    unfold stepD step
    rw [if_pos hc, if_pos hc2]
    exact ⟨rfl, rfl⟩
  · have hc2 : ¬(IsZero (stepDOmega mult rT sd) || IsZero sd.rTh) = true := hc
    unfold stepD step
    rw [if_neg hc, if_neg hc2]
    exact ⟨rfl, rfl⟩

theorem loopD_succ_eq (mult : Vec → Vec) (rT : Vec) (err : ℚ) (maxIter fuel : Nat) (sd : StD) :
    loopD mult rT err maxIter (fuel + 1) sd =
      if err < sd.rTr ∧ sd.its < maxIter then
        if (stepD mult rT sd).2 then (stepD mult rT sd).1
        else loopD mult rT err maxIter fuel (stepD mult rT sd).1
      else sd := rfl

theorem loopD_proj (mult : Vec → Vec) (rT : Vec) (err : ℚ) (maxIter : Nat) :
    ∀ fuel sd, projD (loopD mult rT err maxIter fuel sd)
      = loop mult rT err maxIter fuel (projD sd) := by
  intro fuel
  induction fuel with
  | zero => intro sd; rfl
  | succ n ih =>
    intro sd
    rw [loopD_succ_eq, loop_succ_eq]
    obtain ⟨h1, h2⟩ := stepD_proj mult rT sd
    by_cases hc : err < sd.rTr ∧ sd.its < maxIter
    · rw [if_pos hc,
        if_pos (show err < (projD sd).rTr ∧ (projD sd).its < maxIter from hc), ← h2]
      by_cases hb : (stepD mult rT sd).2 = true
      · rw [if_pos hb, if_pos hb, h1]
      · rw [if_neg hb, if_neg hb, ih, h1]
    · rw [if_neg hc,
        if_neg (show ¬(err < (projD sd).rTr ∧ (projD sd).its < maxIter) from hc)]

theorem finalStateD_proj (mult : Vec → Vec) (n : Nat) (eps : ℚ) (maxIter0 : Nat) (b x : Vec) :
    projD (finalStateD mult n eps maxIter0 b x) = finalState mult n eps maxIter0 b x := by
  unfold finalStateD finalState
  have hinit : projD (initStD mult n b x) = initSt mult n b x := rfl
  rw [loopD_proj, hinit]

/-! Equivalence of the no-`u` variant with the full solver. -/

theorem stepNoU_proj (mult : Vec → Vec) (rT : Vec) (s : St) :
    (stepNoU mult rT (projU s)).1 = projU (step mult rT s).1
      ∧ (stepNoU mult rT (projU s)).2 = (step mult rT s).2 := by
  by_cases hc : (IsZero (stepOmega mult rT s) || IsZero s.rTh) = true
  · have hc2 : (IsZero (stepUOmega mult rT (projU s)) || IsZero (projU s).rTh) = true := hc
    unfold stepNoU step
    rw [if_pos hc, if_pos hc2]
    exact ⟨rfl, rfl⟩
  · have hc2 : ¬(IsZero (stepUOmega mult rT (projU s)) || IsZero (projU s).rTh) = true := hc
    unfold stepNoU step
    rw [if_neg hc, if_neg hc2]
    exact ⟨rfl, rfl⟩

theorem loopNoU_succ_eq (mult : Vec → Vec) (rT : Vec) (err : ℚ) (maxIter fuel : Nat) (su : StNoU) :
    loopNoU mult rT err maxIter (fuel + 1) su =
      if err < su.rTr ∧ su.its < maxIter then
        if (stepNoU mult rT su).2 then (stepNoU mult rT su).1
        else loopNoU mult rT err maxIter fuel (stepNoU mult rT su).1
      else su := rfl

theorem loopNoU_proj (mult : Vec → Vec) (rT : Vec) (err : ℚ) (maxIter : Nat) :
    ∀ fuel s, loopNoU mult rT err maxIter fuel (projU s)
      = projU (loop mult rT err maxIter fuel s) := by
  intro fuel
  induction fuel with
  | zero => intro s; rfl
  | succ n ih =>
    intro s
    rw [loopNoU_succ_eq, loop_succ_eq]
    obtain ⟨h1, h2⟩ := stepNoU_proj mult rT s
    by_cases hc : err < s.rTr ∧ s.its < maxIter
    · rw [if_pos (show err < (projU s).rTr ∧ (projU s).its < maxIter from hc),
        if_pos hc, h2]
      by_cases hb : (step mult rT s).2 = true
      · rw [if_pos hb, if_pos hb, h1]
      · rw [if_neg hb, if_neg hb, h1, ih]
    · rw [if_neg (show ¬(err < (projU s).rTr ∧ (projU s).its < maxIter) from hc),
        if_neg hc]

theorem finalStateNoU_proj (mult : Vec → Vec) (n : Nat) (eps : ℚ) (maxIter0 : Nat) (b x : Vec) :
    finalStateNoU mult n eps maxIter0 b x = projU (finalState mult n eps maxIter0 b x) := by
  unfold finalStateNoU finalState
  have hinit : initStNoU mult b x = projU (initSt mult n b x) := rfl
  rw [hinit, loopNoU_proj]

/-- Any of the three failing dimension checks makes `solve` return
`false` immediately, with `x` unchanged and `its = 0`. -/
theorem solve_invalid_aux (solver : Solver_BICGSTAB) (A : List Vec) (b x : Vec)
    (h : A.length ≠ b.length ∨ A.length ≠ x.length ∨ A.length = 0) :
    solve solver A b x = (false, x, 0) := by
  unfold solve
  rcases h with h | h | h
  · rw [if_pos h]
  · by_cases h1 : A.length ≠ b.length
    · rw [if_pos h1]
    · rw [if_neg h1, if_pos h]
  · by_cases h1 : A.length ≠ b.length
    · rw [if_pos h1]
    · rw [if_neg h1]
      by_cases h2 : A.length ≠ x.length
      · rw [if_pos h2]
      · rw [if_neg h2, if_pos h]

/-! Claim theorems. -/

/-- C5: for every `A`, `b`, `x` with `dimension(A) ≠ dimension(b)`, or
`dimension(A) ≠ dimension(x)`, or `dimension(A)` not positive, `solve`
returns `false` before any computation: the returned `x` is exactly the
input `x`, `its = 0`, and neither the working vectors nor `mult` enter
the result. -/
theorem solve_rejects_invalid_dimensions (solver : Solver_BICGSTAB) (A : List Vec)
    (b x : Vec)
    (h : A.length ≠ b.length ∨ A.length ≠ x.length ∨ A.length = 0) :
    solve solver A b x = (false, x, 0) :=
  solve_invalid_aux solver A b x h

/-- Witness for C5 at a concrete dimension mismatch (`n = 2` matrix,
length-3 right-hand side). -/
theorem solve_rejects_invalid_dimensions_witness :
    (([[1, 0], [0, 1]] : List Vec).length ≠ ([3, -5, 7] : Vec).length)
    ∧ solve ⟨1/10000, 0⟩ [[1, 0], [0, 1]] [3, -5, 7] [0, 0] = (false, [0, 0], 0) :=
  ⟨by decide,
   solve_rejects_invalid_dimensions ⟨1/10000, 0⟩ [[1, 0], [0, 1]] [3, -5, 7] [0, 0]
     (Or.inl (by decide))⟩

/-- C8: the implementation in which `s` and `h` share one buffer is
observationally equivalent (same return flag, same final `x`, same
iteration count) to the variant that keeps `s` and `h` distinct while
executing the same BLAS calls in the same order. -/
theorem alias_variant_equivalent (solver : Solver_BICGSTAB) (A : List Vec) (b x : Vec) :
    solveDistinct solver A b x = solve solver A b x := by
  unfold solveDistinct solve
  by_cases h1 : A.length ≠ b.length
  · rw [if_pos h1, if_pos h1]
  · rw [if_neg h1, if_neg h1]
    by_cases h2 : A.length ≠ x.length
    · rw [if_pos h2, if_pos h2]
    · rw [if_neg h2, if_neg h2]
      by_cases h3 : A.length = 0
      · rw [if_pos h3, if_pos h3]
      · rw [if_neg h3, if_neg h3]
        rw [← finalStateD_proj (matVec A) A.length solver.epsilon_ solver.max_iter_ b x]
        rfl

/-- C9: the accumulator `u` is written every iteration but never read,
so the variant with the two `u`-updating BLAS calls removed returns the
same flag, final `x` and iteration count on every input. -/
theorem u_accumulator_dead (solver : Solver_BICGSTAB) (A : List Vec) (b x : Vec) :
    solveNoU solver A b x = solve solver A b x := by
  unfold solveNoU solve
  by_cases h1 : A.length ≠ b.length
  · rw [if_pos h1, if_pos h1]
  · rw [if_neg h1, if_neg h1]
    by_cases h2 : A.length ≠ x.length
    · rw [if_pos h2, if_pos h2]
    · rw [if_neg h2, if_neg h2]
      by_cases h3 : A.length = 0
      · rw [if_pos h3, if_pos h3]
      · rw [if_neg h3, if_neg h3]
        rw [finalStateNoU_proj (matVec A) A.length solver.epsilon_ solver.max_iter_ b x]
        rfl

/-- C2: for every run of `solve` that passes input validation, the
returned boolean equals `rTr ≤ err` at loop exit — also for exits via a
breakdown `break` or via the iteration cap — where
`err = ε²·⟨b,b⟩` is fixed at entry and the loop-exit `rTr` is
`⟨r,r⟩` of the last computed residual. -/
theorem solve_flag_is_rTr_le_err (solver : Solver_BICGSTAB) (A : List Vec) (b x : Vec)
    (hb : A.length = b.length) (hx : A.length = x.length) (hn : A.length ≠ 0) :
    (solve solver A b x).1
      = decide (dot (finalState (matVec A) A.length solver.epsilon_ solver.max_iter_ b x).r
                    (finalState (matVec A) A.length solver.epsilon_ solver.max_iter_ b x).r
          ≤ solver.epsilon_ * solver.epsilon_ * dot b b) := by
  have hr : (finalState (matVec A) A.length solver.epsilon_ solver.max_iter_ b x).rTr
      = dot (finalState (matVec A) A.length solver.epsilon_ solver.max_iter_ b x).r
            (finalState (matVec A) A.length solver.epsilon_ solver.max_iter_ b x).r := by
    unfold finalState
    exact loop_rTr (matVec A) (initR (matVec A) b x) _ _ _ _ rfl
  rw [solve_of_valid solver A b x hb hx hn]
  dsimp only
  rw [hr]

/-- Witness for C2 on the identity system `A = I₂`, `b = x₀ = [3,-5]`
(where the flag is `true` and the exit residual is zero). -/
theorem solve_flag_is_rTr_le_err_witness :
    (([[1, 0], [0, 1]] : List Vec).length = ([3, -5] : Vec).length)
    ∧ (solve ⟨1/10000, 0⟩ [[1, 0], [0, 1]] [3, -5] [3, -5]).1
      = decide (dot (finalState (matVec [[1, 0], [0, 1]]) 2 (1/10000) 0 [3, -5] [3, -5]).r
                    (finalState (matVec [[1, 0], [0, 1]]) 2 (1/10000) 0 [3, -5] [3, -5]).r
          ≤ 1/10000 * (1/10000) * dot [3, -5] [3, -5]) :=
  ⟨by decide,
   solve_flag_is_rTr_le_err ⟨1/10000, 0⟩ [[1, 0], [0, 1]] [3, -5] [3, -5]
     (by decide) (by decide) (by decide)⟩

/-- C10: in exact arithmetic the residual invariant `r = A·x - b` is
established by the initialization (`r ← A·x − b`, with `d = h = rT = r`)
and preserved by every loop body — both by a completed iteration and by
one ending in a breakdown `break` — because the updates of `r` and `x`
are paired through `Ad = A·d` and `t = A·s`; consequently it holds at
the state the loop leaves behind after any number of iterations. -/
theorem residual_invariant_established_preserved (A : List Vec) (b rT : Vec) :
    (∀ n x, ResInv A b (initSt (matVec A) n b x))
    ∧ (∀ s : St, LenOk A.length s → ResInv A b s →
        ResInv A b (step (matVec A) rT s).1)
    ∧ (∀ err maxIter fuel s, LenOk A.length s → ResInv A b s →
        ResInv A b (loop (matVec A) rT err maxIter fuel s)) :=
  ⟨fun _ _ => rfl,
   fun s hl hres => step_res A b rT s hl.1 hl.2.2.1 hl.2.2.2 hres,
   fun err maxIter fuel s hl hres =>
     (loop_len_res A b rT err maxIter fuel s hl hres).2⟩

/-- Witness for C10: one step on the `1×1` system `A = [[2]]`,
`b = [4]` from the residual-correct state reached by initialization at
`x = [0]`. -/
theorem residual_invariant_established_preserved_witness :
    ResInv [[2]] [4]
      (step (matVec [[2]]) [-4]
        { x := [0], r := [-4], d := [-4], h := [-4], u := [0],
          rTh := 16, rTr := 16, its := 0 }).1 :=
  (residual_invariant_established_preserved [[2]] [4] [-4]).2.1
    { x := [0], r := [-4], d := [-4], h := [-4], u := [0],
      rTh := 16, rTr := 16, its := 0 }
    (by decide) (by norm_num [ResInv, matVec, dot, axpy])

/-! Evaluation helpers for the divide-by-zero guard and the loop. -/

theorem IsZero_eq_true (a : ℚ) (h : |a| < 10 * tiny) : IsZero a = true := by
  unfold IsZero
  exact decide_eq_true h

theorem IsZero_eq_false (a : ℚ) (h : 10 * tiny ≤ |a|) : IsZero a = false := by
  unfold IsZero
  exact decide_eq_false (not_lt.mpr h)

theorem IsZero_eq_false_of_pos (a : ℚ) (h : 10 * tiny ≤ a) : IsZero a = false := by
  apply IsZero_eq_false
  rwa [abs_of_nonneg (le_trans (by unfold tiny; norm_num) h)]

theorem IsZero_eq_true_of_pos (a : ℚ) (h0 : 0 ≤ a) (h : a < 10 * tiny) : IsZero a = true := by
  apply IsZero_eq_true
  rwa [abs_of_nonneg h0]

theorem loop_one_exit (mult : Vec → Vec) (rT : Vec) (err : ℚ) (maxIter : Nat) (s : St)
    (h : ¬(err < s.rTr ∧ s.its < maxIter)) : loop mult rT err maxIter 1 s = s := by
  rw [show (1 : Nat) = 0 + 1 from rfl, loop_succ_eq, if_neg h]

/-- Shared: a zero initial residual makes the loop exit at once with
`success = true`, `x` untouched, `its = 0`. -/
theorem solve_zero_residual_aux (solver : Solver_BICGSTAB) (A : List Vec) (b x : Vec)
    (hb : A.length = b.length) (hx : A.length = x.length) (hn : A.length ≠ 0)
    (hres : initR (matVec A) b x = zeroVec A.length) :
    solve solver A b x = (true, x, 0) := by
  have herr : 0 ≤ solver.epsilon_ * solver.epsilon_ * dot b b :=
    mul_nonneg (mul_self_nonneg _) (dot_self_nonneg b)
  have hrTr : (initSt (matVec A) A.length b x).rTr = 0 := by
    show dot (initR (matVec A) b x) (initR (matVec A) b x) = 0
    rw [hres]
    exact dot_zeroVec _
  have hfs : finalState (matVec A) A.length solver.epsilon_ solver.max_iter_ b x
      = initSt (matVec A) A.length b x := by
    unfold finalState
    rw [loop_succ_eq]
    refine if_neg ?_
    intro hcon
    rw [hrTr] at hcon
    exact absurd hcon.1 (not_lt.mpr herr)
  rw [solve_of_valid solver A b x hb hx hn, hfs]
  have hdec : (initSt (matVec A) A.length b x).rTr
      ≤ solver.epsilon_ * solver.epsilon_ * dot b b := by
    rw [hrTr]; exact herr
  rw [decide_eq_true hdec]
  rfl

/-! Concrete run 1: `A = [[2]]`, `b = [4]`, `x₀ = [0]`, `ε = 1e-4`.
The first iteration computes the exact solution, `st = tt = 0` forces
`ω = 0`, the `ω` breakdown fires, and the solver returns true. -/

theorem run1_initR : initR (matVec [[2]]) [4] [0] = [-4] := by
  norm_num [initR, matVec, dot, axpy]

theorem run1_initSt : initSt (matVec [[2]]) 1 [4] [0] = { x := [0], r := [-4], d := [-4], h := [-4], u := [0], rTh := 16, rTr := 16, its := 0 } := by
  norm_num [initSt, run1_initR, zeroVec, dot, St.mk.injEq, List.replicate]

theorem run1_stepSt : stepSt (matVec [[2]]) [-4] { x := [0], r := [-4], d := [-4], h := [-4], u := [0], rTh := 16, rTr := 16, its := 0 } = 0 := by
  norm_num [stepSt, stepH1, stepT, stepAd, stepAlpha, stepRTAd, matVec, dot, axpy]

theorem run1_omega : stepOmega (matVec [[2]]) [-4] { x := [0], r := [-4], d := [-4], h := [-4], u := [0], rTh := 16, rTr := 16, its := 0 } = 0 := by
  unfold stepOmega
  rw [if_pos (by rw [run1_stepSt, IsZero_zero, Bool.true_or])]

theorem run1_omega_iszero : IsZero (stepOmega (matVec [[2]]) [-4] { x := [0], r := [-4], d := [-4], h := [-4], u := [0], rTh := 16, rTr := 16, its := 0 }) = true := by
  rw [run1_omega]
  exact IsZero_zero

theorem run1_step : step (matVec [[2]]) [-4] { x := [0], r := [-4], d := [-4], h := [-4], u := [0], rTh := 16, rTr := 16, its := 0 } = ({ x := [2], r := [0], d := [-4], h := [0], u := [0], rTh := 16, rTr := 0, its := 0 }, true) := by
  have hcond : (IsZero (stepOmega (matVec [[2]]) [-4] { x := [0], r := [-4], d := [-4], h := [-4], u := [0], rTh := 16, rTr := 16, its := 0 }) || IsZero (16 : ℚ)) = true := by
    rw [run1_omega_iszero, Bool.true_or]
  unfold step
  rw [if_pos hcond]
  norm_num [stepX, stepR2, stepR1, stepH2, stepH1, stepT, stepAd, stepAlpha, stepRTAd,
    stepUacc, run1_omega, matVec, dot, axpy, scal, Prod.ext_iff, St.mk.injEq]

theorem run1_final : finalState (matVec [[2]]) 1 ((1 : ℚ)/10000) 0 [4] [0] = { x := [2], r := [0], d := [-4], h := [0], u := [0], rTh := 16, rTr := 0, its := 0 } := by
  unfold finalState
  rw [run1_initR, run1_initSt]
  rw [show effCap 1 0 = 10 from rfl]
  rw [loop_succ_eq]
  rw [if_pos ⟨by norm_num [dot], by decide⟩]
  rw [run1_step]
  simp

theorem run1_solve : solve ⟨1/10000, 0⟩ [[2]] [4] [0] = (true, [2], 0) := by
  show (decide ((finalState (matVec [[2]]) 1 ((1 : ℚ)/10000) 0 [4] [0]).rTr
      ≤ 1/10000 * (1/10000) * dot [4] [4]),
    (finalState (matVec [[2]]) 1 ((1 : ℚ)/10000) 0 [4] [0]).x,
    (finalState (matVec [[2]]) 1 ((1 : ℚ)/10000) 0 [4] [0]).its) = (true, [2], 0)
  rw [run1_final]
  norm_num [Prod.ext_iff, dot]

/-! Concrete run 2: `A = [[tiny]]`, `b = [-1]`, `x₀ = [0]`, `ε = 1e-4`.
Here `rTAd = tiny` is near zero; the solver divides by it anyway
(`α = 2¹⁰²²`), overshoots `x` to `-2¹⁰²²`, reaches an exactly zero
residual, breaks on `ω = 0` and returns true. -/

theorem run2_initR : initR (matVec [[tiny]]) [-1] [0] = [1] := by
  norm_num [initR, matVec, dot, axpy, tiny]

theorem run2_initSt : initSt (matVec [[tiny]]) 1 [-1] [0] = { x := [0], r := [1], d := [1], h := [1], u := [0], rTh := 1, rTr := 1, its := 0 } := by
  norm_num [initSt, run2_initR, zeroVec, dot, St.mk.injEq, List.replicate]

theorem run2_rTAd : stepRTAd (matVec [[tiny]]) [1] { x := [0], r := [1], d := [1], h := [1], u := [0], rTh := 1, rTr := 1, its := 0 } = tiny := by
  norm_num [stepRTAd, stepAd, matVec, dot]

theorem run2_stepSt : stepSt (matVec [[tiny]]) [1] { x := [0], r := [1], d := [1], h := [1], u := [0], rTh := 1, rTr := 1, its := 0 } = 0 := by
  norm_num [stepSt, stepH1, stepT, stepAd, stepAlpha, stepRTAd, matVec, dot, axpy, tiny]

theorem run2_omega : stepOmega (matVec [[tiny]]) [1] { x := [0], r := [1], d := [1], h := [1], u := [0], rTh := 1, rTr := 1, its := 0 } = 0 := by
  unfold stepOmega
  rw [if_pos (by rw [run2_stepSt, IsZero_zero, Bool.true_or])]

theorem run2_step : step (matVec [[tiny]]) [1] { x := [0], r := [1], d := [1], h := [1], u := [0], rTh := 1, rTr := 1, its := 0 } = ({ x := [-(2 ^ 1022)], r := [0], d := [1], h := [0], u := [0], rTh := 1, rTr := 0, its := 0 }, true) := by
  have hcond : (IsZero (stepOmega (matVec [[tiny]]) [1] { x := [0], r := [1], d := [1], h := [1], u := [0], rTh := 1, rTr := 1, its := 0 }) || IsZero (1 : ℚ)) = true := by
    rw [run2_omega, IsZero_zero, Bool.true_or]
  unfold step
  rw [if_pos hcond]
  norm_num [stepX, stepR2, stepR1, stepH2, stepH1, stepT, stepAd, stepAlpha, stepRTAd,
    stepUacc, run2_omega, matVec, dot, axpy, scal, tiny, Prod.ext_iff, St.mk.injEq]

theorem run2_final : finalState (matVec [[tiny]]) 1 ((1 : ℚ)/10000) 0 [-1] [0] = { x := [-(2 ^ 1022)], r := [0], d := [1], h := [0], u := [0], rTh := 1, rTr := 0, its := 0 } := by
  unfold finalState
  rw [run2_initR, run2_initSt]
  rw [show effCap 1 0 = 10 from rfl]
  rw [loop_succ_eq]
  rw [if_pos ⟨by norm_num [dot], by decide⟩]
  rw [run2_step]
  simp

theorem run2_solve : solve ⟨1/10000, 0⟩ [[tiny]] [-1] [0] = (true, [-(2 ^ 1022)], 0) := by
  show (decide ((finalState (matVec [[tiny]]) 1 ((1 : ℚ)/10000) 0 [-1] [0]).rTr
      ≤ 1/10000 * (1/10000) * dot [-1] [-1]),
    (finalState (matVec [[tiny]]) 1 ((1 : ℚ)/10000) 0 [-1] [0]).x,
    (finalState (matVec [[tiny]]) 1 ((1 : ℚ)/10000) 0 [-1] [0]).its) = (true, [-(2 ^ 1022)], 0)
  rw [run2_final]
  norm_num [Prod.ext_iff, dot]

/-! Concrete run 4: `A = [[4,1],[1,3]]`, `b = [1,2]`, `x₀ = 0`,
`ε = 1e-8`, cap `1`.  One full (non-breaking) iteration runs, leaving
`rTr = 1/32 > err`; the cap stops the loop and `solve` returns false. -/

theorem run4_initR : initR (matVec [[4, 1], [1, 3]]) [1, 2] [0, 0] = [-1, -2] := by
  norm_num [initR, matVec, dot, axpy]

theorem run4_initSt : initSt (matVec [[4, 1], [1, 3]]) 2 [1, 2] [0, 0] = { x := [0, 0], r := [-1, -2], d := [-1, -2], h := [-1, -2], u := [0, 0], rTh := 5, rTr := 5, its := 0 } := by
  norm_num [initSt, run4_initR, zeroVec, dot, St.mk.injEq, List.replicate]

theorem run4_stepSt : stepSt (matVec [[4, 1], [1, 3]]) [-1, -2] { x := [0, 0], r := [-1, -2], d := [-1, -2], h := [-1, -2], u := [0, 0], rTh := 5, rTr := 5, its := 0 } = 15/16 := by
  norm_num [stepSt, stepH1, stepT, stepAd, stepAlpha, stepRTAd, matVec, dot, axpy]

theorem run4_stepTt : stepTt (matVec [[4, 1], [1, 3]]) [-1, -2] { x := [0, 0], r := [-1, -2], d := [-1, -2], h := [-1, -2], u := [0, 0], rTh := 5, rTr := 5, its := 0 } = 25/8 := by
  norm_num [stepTt, stepH1, stepT, stepAd, stepAlpha, stepRTAd, matVec, dot, axpy]

theorem run4_omega : stepOmega (matVec [[4, 1], [1, 3]]) [-1, -2] { x := [0, 0], r := [-1, -2], d := [-1, -2], h := [-1, -2], u := [0, 0], rTh := 5, rTr := 5, its := 0 } = 3/10 := by
  unfold stepOmega
  rw [if_neg (by
    rw [run4_stepSt, run4_stepTt,
      IsZero_eq_false_of_pos (15/16) (by unfold tiny; norm_num),
      IsZero_eq_false_of_pos (25/8) (by unfold tiny; norm_num)]
    exact Bool.false_ne_true)]
  rw [run4_stepSt, run4_stepTt]
  norm_num

theorem run4_hcond : (IsZero (stepOmega (matVec [[4, 1], [1, 3]]) [-1, -2] { x := [0, 0], r := [-1, -2], d := [-1, -2], h := [-1, -2], u := [0, 0], rTh := 5, rTr := 5, its := 0 }) || IsZero (5 : ℚ)) = false := by
  rw [run4_omega,
    IsZero_eq_false_of_pos (3/10) (by unfold tiny; norm_num),
    IsZero_eq_false_of_pos 5 (by unfold tiny; norm_num)]
  rfl

theorem run4_brk : (step (matVec [[4, 1], [1, 3]]) [-1, -2] { x := [0, 0], r := [-1, -2], d := [-1, -2], h := [-1, -2], u := [0, 0], rTh := 5, rTr := 5, its := 0 }).2 = false := by
  unfold step
  rw [if_neg (by intro hcon; rw [run4_hcond] at hcon; exact Bool.false_ne_true hcon)]

theorem run4_stepR2 : stepR2 (matVec [[4, 1], [1, 3]]) [-1, -2] { x := [0, 0], r := [-1, -2], d := [-1, -2], h := [-1, -2], u := [0, 0], rTh := 5, rTr := 5, its := 0 } = [-1/40, -7/40] := by
  norm_num [stepR2, stepR1, stepH1, stepT, stepAd, stepAlpha, stepRTAd, run4_omega,
    matVec, dot, axpy]

theorem run4_rTr : (step (matVec [[4, 1], [1, 3]]) [-1, -2] { x := [0, 0], r := [-1, -2], d := [-1, -2], h := [-1, -2], u := [0, 0], rTh := 5, rTr := 5, its := 0 }).1.rTr = 1/32 := by
  rw [step_fst_rTr, step_fst_r, run4_stepR2]
  norm_num [dot]

theorem run4_its : (step (matVec [[4, 1], [1, 3]]) [-1, -2] { x := [0, 0], r := [-1, -2], d := [-1, -2], h := [-1, -2], u := [0, 0], rTh := 5, rTr := 5, its := 0 }).1.its = 1 := by
  unfold step
  rw [if_neg (by intro hcon; rw [run4_hcond] at hcon; exact Bool.false_ne_true hcon)]

theorem run4_final : finalState (matVec [[4, 1], [1, 3]]) 2 ((1 : ℚ)/100000000) 1 [1, 2] [0, 0]
    = (step (matVec [[4, 1], [1, 3]]) [-1, -2] { x := [0, 0], r := [-1, -2], d := [-1, -2], h := [-1, -2], u := [0, 0], rTh := 5, rTr := 5, its := 0 }).1 := by
  unfold finalState
  rw [run4_initR, run4_initSt]
  rw [show effCap 2 1 = 1 from rfl]
  rw [loop_succ_eq]
  rw [if_pos ⟨by norm_num [dot], by decide⟩]
  rw [if_neg (by intro hcon; rw [run4_brk] at hcon; exact Bool.false_ne_true hcon)]
  exact loop_one_exit _ _ _ _ _ (by
    intro hcon
    obtain ⟨h1q, h2q⟩ := hcon
    rw [run4_its] at h2q
    exact absurd h2q (by decide))

/-- C1: whenever `solve` returns true, the returned iterate satisfies
the residual contract `‖A·x − b‖² ≤ ε²·‖b‖²`, with the residual
recomputed independently (and exactly) from `A`, the returned `x`, and
`b` — not read off the solver's internally carried `rTr`. -/
theorem solve_true_residual_contract (solver : Solver_BICGSTAB) (A : List Vec) (b x : Vec)
    (hsucc : (solve solver A b x).1 = true) :
    dot (axpy (-1) b (matVec A ((solve solver A b x).2.1)))
        (axpy (-1) b (matVec A ((solve solver A b x).2.1)))
      ≤ solver.epsilon_ * solver.epsilon_ * dot b b := by
  have hb : A.length = b.length := by
    by_contra hcon
    rw [solve_invalid_aux solver A b x (Or.inl hcon)] at hsucc
    exact Bool.false_ne_true hsucc
  have hx : A.length = x.length := by
    by_contra hcon
    rw [solve_invalid_aux solver A b x (Or.inr (Or.inl hcon))] at hsucc
    exact Bool.false_ne_true hsucc
  have hn : A.length ≠ 0 := by
    intro hcon
    rw [solve_invalid_aux solver A b x (Or.inr (Or.inr hcon))] at hsucc
    exact Bool.false_ne_true hsucc
  rw [solve_of_valid solver A b x hb hx hn] at hsucc ⊢
  dsimp only at hsucc ⊢
  have hsle : (finalState (matVec A) A.length solver.epsilon_ solver.max_iter_ b x).rTr
      ≤ solver.epsilon_ * solver.epsilon_ * dot b b := of_decide_eq_true hsucc
  have hlr : (initR (matVec A) b x).length = A.length := by
    simp [initR, length_axpy, length_matVec, ← hb]
  have hinv := loop_len_res A b (initR (matVec A) b x)
    (solver.epsilon_ * solver.epsilon_ * dot b b)
    (effCap A.length solver.max_iter_) (effCap A.length solver.max_iter_ + 1)
    (initSt (matVec A) A.length b x) ⟨hx.symm, hlr, hlr, hlr⟩ rfl
  have hres2 : (finalState (matVec A) A.length solver.epsilon_ solver.max_iter_ b x).r
      = axpy (-1) b (matVec A
          (finalState (matVec A) A.length solver.epsilon_ solver.max_iter_ b x).x) :=
    hinv.2
  have hrTr : (finalState (matVec A) A.length solver.epsilon_ solver.max_iter_ b x).rTr
      = dot (finalState (matVec A) A.length solver.epsilon_ solver.max_iter_ b x).r
            (finalState (matVec A) A.length solver.epsilon_ solver.max_iter_ b x).r := by
    unfold finalState
    exact loop_rTr (matVec A) (initR (matVec A) b x) _ _ _ _ rfl
  rw [← hres2, ← hrTr]
  exact hsle

/-- Witness for C1 on the identity system `A = I₂`, `b = x₀ = [3,-5]`. -/
theorem solve_true_residual_contract_witness :
    (solve ⟨1/10000, 0⟩ [[1, 0], [0, 1]] [3, -5] [3, -5]).1 = true
    ∧ dot (axpy (-1) [3, -5] (matVec [[1, 0], [0, 1]]
            ((solve ⟨1/10000, 0⟩ [[1, 0], [0, 1]] [3, -5] [3, -5]).2.1)))
          (axpy (-1) [3, -5] (matVec [[1, 0], [0, 1]]
            ((solve ⟨1/10000, 0⟩ [[1, 0], [0, 1]] [3, -5] [3, -5]).2.1)))
      ≤ 1/10000 * (1/10000) * dot [3, -5] [3, -5] := by
  have h1 : (solve ⟨1/10000, 0⟩ [[1, 0], [0, 1]] [3, -5] [3, -5]).1 = true := by
    rw [solve_zero_residual_aux ⟨1/10000, 0⟩ [[1, 0], [0, 1]] [3, -5] [3, -5]
      (by decide) (by decide) (by decide)
      (by norm_num [initR, matVec, dot, axpy, zeroVec, List.replicate])]
  exact ⟨h1, solve_true_residual_contract ⟨1/10000, 0⟩ [[1, 0], [0, 1]] [3, -5] [3, -5] h1⟩

/-- C3 (amended): when `ω`, `rTh`, or `tt` is near zero (per `IsZero`)
during an iteration whose loop condition held, the solver stops the
loop cleanly at that point — the body's `break` fires, no further
iteration runs, the counter is not incremented, and the carried `rTr`
is the square of the carried residual.  (The claim's "returns false"
does not hold: the return value is `rTr ≤ err` at the break state,
which is true when the residual already meets the tolerance — see the
counterexample.  In this exact-arithmetic model no NaN or Inf exists.) -/
theorem breakdown_stops_loop (mult : Vec → Vec) (rT : Vec) (err : ℚ)
    (maxIter fuel : Nat) (s : St)
    (hgt : err < s.rTr) (hits : s.its < maxIter)
    (hz : IsZero (stepTt mult rT s) = true ∨ IsZero (stepOmega mult rT s) = true
        ∨ IsZero s.rTh = true) :
    loop mult rT err maxIter (fuel + 1) s = (step mult rT s).1
    ∧ (step mult rT s).2 = true
    ∧ (step mult rT s).1.its = s.its
    ∧ (step mult rT s).1.rTr = dot ((step mult rT s).1.r) ((step mult rT s).1.r) := by
  have hcond : (IsZero (stepOmega mult rT s) || IsZero s.rTh) = true := by
    rcases hz with h | h | h
    · have homega : stepOmega mult rT s = 0 := by
        unfold stepOmega
        rw [if_pos (by rw [h, Bool.or_true])]
      rw [homega, IsZero_zero, Bool.true_or]
    · rw [h, Bool.true_or]
    · rw [h, Bool.or_true]
  have hbrk : (step mult rT s).2 = true := by
    unfold step
    rw [if_pos hcond]
  refine ⟨?_, hbrk, ?_, step_fst_rTr mult rT s⟩
  · rw [loop_succ_eq, if_pos ⟨hgt, hits⟩, if_pos hbrk]
  · unfold step
    rw [if_pos hcond]

/-- Witness for C3's amended theorem: run 1 (`A = [[2]]`, `b = [4]`,
`x₀ = [0]`) hits the `ω ≈ 0` breakdown in its first iteration and the
loop stops right there. -/
theorem breakdown_stops_loop_witness :
    loop (matVec [[2]]) [-4] (1/10000 * (1/10000) * dot [4] [4]) 10 (10 + 1) { x := [0], r := [-4], d := [-4], h := [-4], u := [0], rTh := 16, rTr := 16, its := 0 }
      = (step (matVec [[2]]) [-4] { x := [0], r := [-4], d := [-4], h := [-4], u := [0], rTh := 16, rTr := 16, its := 0 }).1
    ∧ (step (matVec [[2]]) [-4] { x := [0], r := [-4], d := [-4], h := [-4], u := [0], rTh := 16, rTr := 16, its := 0 }).2 = true := by
  have h := breakdown_stops_loop (matVec [[2]]) [-4] (1/10000 * (1/10000) * dot [4] [4]) 10 10
    { x := [0], r := [-4], d := [-4], h := [-4], u := [0], rTh := 16, rTr := 16, its := 0 } (by norm_num [dot]) (by decide) (Or.inr (Or.inl run1_omega_iszero))
  exact ⟨h.1, h.2.1⟩

/-- Counterexample to C3 as stated: on `A = [[2]]`, `b = [4]`,
`x₀ = [0]` the `ω` divide-by-zero guard fires during the first
iteration (`ω = 0` is near zero), yet `solve` returns true, not false:
the iteration had already driven the residual to exactly zero. -/
theorem breakdown_can_return_true :
    IsZero (stepOmega (matVec [[2]]) (initR (matVec [[2]]) [4] [0]) (initSt (matVec [[2]]) 1 [4] [0])) = true
    ∧ solve ⟨1/10000, 0⟩ [[2]] [4] [0] = (true, [2], 0) := by
  constructor
  · rw [run1_initR, run1_initSt]
    exact run1_omega_iszero
  · exact run1_solve

/-- C4 (amended): a near-zero `rTAd = ⟨rT, Ad⟩` is NOT treated like the
`ω ≈ 0` / `rTh ≈ 0` breakdowns.  The code only asserts on it (a no-op
in release builds) and then divides: `α = rTh / rTAd` is computed with
the near-zero denominator, and — whenever the later `ω`/`rTh` guards do
not fire — the iteration completes normally and the loop continues with
the counter incremented; no abort with `false` happens at this point. -/
theorem near_zero_rTAd_not_a_breakdown (mult : Vec → Vec) (rT : Vec) (s : St)
    (hAd : IsZero (stepRTAd mult rT s) = true)
    (homega : IsZero (stepOmega mult rT s) = false)
    (hrTh : IsZero s.rTh = false) :
    (step mult rT s).2 = false
    ∧ (step mult rT s).1.its = s.its + 1
    ∧ stepAlpha mult rT s = s.rTh / stepRTAd mult rT s := by
  have hcond : ¬((IsZero (stepOmega mult rT s) || IsZero s.rTh) = true) := by
    rw [homega, hrTh]
    simp
  refine ⟨?_, ?_, rfl⟩
  · unfold step
    rw [if_neg hcond]
  · unfold step
    rw [if_neg hcond]

/-- Witness for C4's amended theorem: with `A = [[tiny,0],[0,1]]` and a
state whose `rTAd` is exactly `tiny` (near zero) while `ω ≈ 1` and
`rTh = 1` are not, the iteration completes and continues. -/
theorem near_zero_rTAd_not_a_breakdown_witness :
    IsZero (stepRTAd (matVec [[tiny, 0], [0, 1]]) [1, 0] { x := [0, 0], r := [1, 1], d := [1, 0], h := [0, 1], u := [0, 0], rTh := 1, rTr := 1, its := 0 }) = true
    ∧ (step (matVec [[tiny, 0], [0, 1]]) [1, 0] { x := [0, 0], r := [1, 1], d := [1, 0], h := [0, 1], u := [0, 0], rTh := 1, rTr := 1, its := 0 }).2 = false
    ∧ (step (matVec [[tiny, 0], [0, 1]]) [1, 0] { x := [0, 0], r := [1, 1], d := [1, 0], h := [0, 1], u := [0, 0], rTh := 1, rTr := 1, its := 0 }).1.its = 0 + 1 := by
  have hAd : IsZero (stepRTAd (matVec [[tiny, 0], [0, 1]]) [1, 0] { x := [0, 0], r := [1, 1], d := [1, 0], h := [0, 1], u := [0, 0], rTh := 1, rTr := 1, its := 0 }) = true := by
    have h : stepRTAd (matVec [[tiny, 0], [0, 1]]) [1, 0] { x := [0, 0], r := [1, 1], d := [1, 0], h := [0, 1], u := [0, 0], rTh := 1, rTr := 1, its := 0 } = tiny := by
      norm_num [stepRTAd, stepAd, matVec, dot]
    rw [h]
    exact IsZero_eq_true_of_pos tiny (by unfold tiny; norm_num) (by unfold tiny; norm_num)
  have hst : stepSt (matVec [[tiny, 0], [0, 1]]) [1, 0] { x := [0, 0], r := [1, 1], d := [1, 0], h := [0, 1], u := [0, 0], rTh := 1, rTr := 1, its := 0 } = 1 + 1/2 ^ 1022 := by
    norm_num [stepSt, stepH1, stepT, stepAd, stepAlpha, stepRTAd, matVec, dot, axpy, tiny]
  have htt : stepTt (matVec [[tiny, 0], [0, 1]]) [1, 0] { x := [0, 0], r := [1, 1], d := [1, 0], h := [0, 1], u := [0, 0], rTh := 1, rTr := 1, its := 0 } = 1 + 1/2 ^ 2044 := by
    norm_num [stepTt, stepH1, stepT, stepAd, stepAlpha, stepRTAd, matVec, dot, axpy, tiny]
  have homega : IsZero (stepOmega (matVec [[tiny, 0], [0, 1]]) [1, 0] { x := [0, 0], r := [1, 1], d := [1, 0], h := [0, 1], u := [0, 0], rTh := 1, rTr := 1, its := 0 }) = false := by
    have hcondf : (IsZero (stepSt (matVec [[tiny, 0], [0, 1]]) [1, 0] { x := [0, 0], r := [1, 1], d := [1, 0], h := [0, 1], u := [0, 0], rTh := 1, rTr := 1, its := 0 })
        || IsZero (stepTt (matVec [[tiny, 0], [0, 1]]) [1, 0] { x := [0, 0], r := [1, 1], d := [1, 0], h := [0, 1], u := [0, 0], rTh := 1, rTr := 1, its := 0 })) = false := by
      rw [hst, htt,
        IsZero_eq_false_of_pos (1 + 1/2 ^ 1022) (by unfold tiny; norm_num),
        IsZero_eq_false_of_pos (1 + 1/2 ^ 2044) (by unfold tiny; norm_num)]
      rfl
    unfold stepOmega
    rw [if_neg (by intro hcon; rw [hcondf] at hcon; exact Bool.false_ne_true hcon)]
    rw [hst, htt]
    exact IsZero_eq_false_of_pos _ (by unfold tiny; norm_num)
  obtain ⟨h1, h2, h3⟩ := near_zero_rTAd_not_a_breakdown (matVec [[tiny, 0], [0, 1]]) [1, 0] { x := [0, 0], r := [1, 1], d := [1, 0], h := [0, 1], u := [0, 0], rTh := 1, rTr := 1, its := 0 } hAd homega
    (IsZero_eq_false_of_pos 1 (by unfold tiny; norm_num))
  exact ⟨hAd, h1, h2⟩

/-- Counterexample to C4 as stated: on `A = [[tiny]]`, `b = [-1]`,
`x₀ = [0]` the first iteration's `rTAd = tiny` is near zero, yet no
guard fires on it: the solver divides `rTh` by it (`α = 2¹⁰²²`),
overshoots the iterate to `x = [-2¹⁰²²]`, and returns TRUE — not the
claimed false-with-last-iterate abort. -/
theorem near_zero_rTAd_divides_anyway :
    IsZero (stepRTAd (matVec [[tiny]]) (initR (matVec [[tiny]]) [-1] [0]) (initSt (matVec [[tiny]]) 1 [-1] [0])) = true
    ∧ solve ⟨1/10000, 0⟩ [[tiny]] [-1] [0] = (true, [-(2 ^ 1022)], 0) := by
  constructor
  · rw [run2_initR, run2_initSt, run2_rTAd]
    exact IsZero_eq_true_of_pos tiny (by unfold tiny; norm_num) (by unfold tiny; norm_num)
  · exact run2_solve

/-- C6: a configured cap of `0` behaves exactly as `10·n`; a configured
cap `k` bounds the iteration counter by `k` (stated via the effective
cap `if k = 0 then 10·n else k`, which subsumes both readings); and
reaching the loop exit with `rTr > err` makes `solve` return false. -/
theorem iteration_cap_semantics (eps : ℚ) (k : Nat) (A : List Vec) (b x : Vec)
    (hb : A.length = b.length) (hx : A.length = x.length) (hn : A.length ≠ 0) :
    solve ⟨eps, 0⟩ A b x = solve ⟨eps, 10 * A.length⟩ A b x
    ∧ (solve ⟨eps, k⟩ A b x).2.2 ≤ (if k = 0 then 10 * A.length else k)
    ∧ (eps * eps * dot b b < (finalState (matVec A) A.length eps k b x).rTr →
        (solve ⟨eps, k⟩ A b x).1 = false) := by
  refine ⟨?_, ?_, ?_⟩
  · rw [solve_of_valid ⟨eps, 0⟩ A b x hb hx hn,
      solve_of_valid ⟨eps, 10 * A.length⟩ A b x hb hx hn]
    have hcap : effCap A.length 0 = effCap A.length (10 * A.length) := by
      unfold effCap
      rw [if_pos rfl, if_neg (Nat.mul_ne_zero (by norm_num) hn)]
    have hfs : finalState (matVec A) A.length
          (Solver_BICGSTAB.mk eps 0).epsilon_ (Solver_BICGSTAB.mk eps 0).max_iter_ b x
        = finalState (matVec A) A.length
          (Solver_BICGSTAB.mk eps (10 * A.length)).epsilon_
          (Solver_BICGSTAB.mk eps (10 * A.length)).max_iter_ b x := by
      show finalState (matVec A) A.length eps 0 b x
          = finalState (matVec A) A.length eps (10 * A.length) b x
      unfold finalState
      rw [hcap]
    rw [hfs]
  · rw [solve_of_valid ⟨eps, k⟩ A b x hb hx hn]
    have h : (finalState (matVec A) A.length eps k b x).its ≤ effCap A.length k := by
      unfold finalState
      exact loop_its (matVec A) (initR (matVec A) b x) (eps * eps * dot b b)
        (effCap A.length k) (effCap A.length k + 1) (initSt (matVec A) A.length b x)
        (Nat.zero_le _)
    exact h
  · intro hgt
    rw [solve_of_valid ⟨eps, k⟩ A b x hb hx hn]
    exact decide_eq_false (not_le.mpr hgt)

/-- Witness for C6: the SPD system `A = [[4,1],[1,3]]`, `b = [1,2]`,
`x₀ = 0`, `ε = 1e-8` with cap `1`: the counter stays at `1` and the run
reports false (`rTr = 1/32 > err = 5e-16` at the cap). -/
theorem iteration_cap_semantics_witness :
    (solve ⟨1/100000000, 1⟩ [[4, 1], [1, 3]] [1, 2] [0, 0]).2.2 ≤ 1
    ∧ (solve ⟨1/100000000, 1⟩ [[4, 1], [1, 3]] [1, 2] [0, 0]).1 = false := by
  have h := iteration_cap_semantics (1/100000000) 1 [[4, 1], [1, 3]] [1, 2] [0, 0]
    (by decide) (by decide) (by decide)
  refine ⟨by simpa using h.2.1, h.2.2 ?_⟩
  show (1 : ℚ)/100000000 * (1/100000000) * dot [1, 2] [1, 2]
      < (finalState (matVec [[4, 1], [1, 3]]) 2 ((1 : ℚ)/100000000) 1 [1, 2] [0, 0]).rTr
  rw [run4_final, run4_rTr]
  norm_num [dot]

/-- C7: on every input whose initial residual `A·x₀ − b` is exactly
zero, `solve` returns true with `its = 0` and `x` unchanged (the loop
condition `rTr > err` fails at once since `rTr = 0 ≤ err`; the
source's `assert(!IsZero(dot(rT,rT)))` is modelled as a release-build
no-op). -/
theorem zero_initial_residual_returns_true (solver : Solver_BICGSTAB) (A : List Vec)
    (b x : Vec)
    (hb : A.length = b.length) (hx : A.length = x.length) (hn : A.length ≠ 0)
    (hres : initR (matVec A) b x = zeroVec A.length) :
    solve solver A b x = (true, x, 0) :=
  solve_zero_residual_aux solver A b x hb hx hn hres

/-- Witness for C7: `A = I₂`, `b = [3,-5]`, `x₀ = [3,-5]` (spec test
scenario 4). -/
theorem zero_initial_residual_returns_true_witness :
    initR (matVec [[1, 0], [0, 1]]) [3, -5] [3, -5] = zeroVec 2
    ∧ solve ⟨1/10000, 0⟩ [[1, 0], [0, 1]] [3, -5] [3, -5] = (true, [3, -5], 0) :=
  ⟨by norm_num [initR, matVec, dot, axpy, zeroVec, List.replicate],
   zero_initial_residual_returns_true ⟨1/10000, 0⟩ [[1, 0], [0, 1]] [3, -5] [3, -5]
     (by decide) (by decide) (by decide)
     (by norm_num [initR, matVec, dot, axpy, zeroVec, List.replicate])⟩

end OpenNL
